import Mathlib

/-!
Shallow embedding of the HeCBench SYCL batch harness
(`run-hecbench-sycl.py`): the bounded process runner `run`, the
per-project build/run pipeline in `main`, the result aggregation and
summary counters, and the `guess_executable` locator heuristic.

External effects are made explicit: one spawned process is a `Proc`
value describing how the OS would behave (completion time, exit code,
captured and drained output); a user interrupt arriving while the
harness waits on a subprocess is a boolean on the project record; log
writes are a list of (file, text) pairs; persisting the report is a
boolean on the batch result.
-/

namespace HecBench

/-- Stage outcome string written into a report row
(`"PASS" / "FAIL" / "SKIP"` in the script). -/
inductive Outcome
  | PASS
  | FAIL
  | SKIP
deriving DecidableEq, Repr, Inhabited

/-- One report row, as appended to `summary_rows` in `main`:
`{"benchmark": .., "compile": .., "run": .., "failure_stage": .., "note": ..}`.
`failure_stage` is `None` (here `none`) or one of the tag strings. -/
structure Row where
  benchmark : String
  compile : Outcome
  run : Outcome
  failure_stage : Option String
  note : String
deriving DecidableEq, Repr, Inhabited

/-- Behaviour of one spawned external process: how long it would run
(`none` = it never exits on its own), its exit code and captured
stdout/stderr when it completes, and the partial output drained by
`communicate()` after the group is killed on timeout. -/
structure Proc where
  runtime : Option Nat
  exitCode : Int
  out : String
  err : String
  drainedOut : String
  drainedErr : String
deriving DecidableEq, Repr, Inhabited

/-- What the `run` helper returns: exit code and captured output, plus
whether `os.killpg(p.pid, signal.SIGKILL)` was invoked on the process
group on that path. -/
structure CommandResult where
  code : Int
  out : String
  err : String
  killedGroup : Bool
deriving DecidableEq, Repr, Inhabited

/-- Result of one `run(...)` call: either it returns a `CommandResult`,
or a `KeyboardInterrupt` arrived while waiting and is re-raised after
the process group was killed (`killedGroup` records the `os.killpg`). -/
inductive RunOutcome
  | done (r : CommandResult)
  | interrupted (killedGroup : Bool)
deriving DecidableEq, Repr, Inhabited

/-- The `run` helper (`run-hecbench-sycl.py`, lines 18-42).
`interrupt` is true when a `KeyboardInterrupt` arrives while
`communicate` waits on this process.  On timeout the whole group is
killed, remaining output is drained, and the call returns exit code
124 with `"\n[TIMEOUT]\n"` appended to the error text. -/
def runCmd (timeoutSec : Nat) (interrupt : Bool) (p : Proc) : RunOutcome :=
  if interrupt then
    .interrupted true
  else
    match p.runtime with
    | some t =>
      if t ≤ timeoutSec then
        .done ⟨p.exitCode, p.out, p.err, false⟩
      else
        .done ⟨124, p.drainedOut, p.drainedErr ++ "\n[TIMEOUT]\n", true⟩
    | none => .done ⟨124, p.drainedOut, p.drainedErr ++ "\n[TIMEOUT]\n", true⟩

/-- Configuration relevant to the pipeline: the make tool name, the
`-j` job count, the two timeouts, the `--skip-run` flag and the
pre-split `--cflags-plus` tokens. -/
structure Config where
  make : String
  makeJobs : Nat
  timeoutBuild : Nat
  timeoutRun : Nat
  skipRun : Bool
  cflagsPlus : List String
deriving DecidableEq, Repr, Inhabited

/-- The build command `main` assembles (lines 160-163):
`[make, -jN, CXX=acpp, USE_GPU=no, VENDOR=AdaptiveCpp]` plus one
`EXTRA_CFLAGS+=tok` argument per extra token. -/
def buildCmd (cfg : Config) : List String :=
  [cfg.make, "-j" ++ toString cfg.makeJobs, "CXX=acpp", "USE_GPU=no",
    "VENDOR=AdaptiveCpp"]
    ++ cfg.cflagsPlus.map (fun tok => "EXTRA_CFLAGS+=" ++ tok)

/-- The single-quote character, written by code point to keep string
literals plain. -/
def squote : String := String.mk [Char.ofNat 39]

/-- Characters `shlex.quote` leaves unquoted: ASCII word characters
plus `@ % + = : , . /` and the dash. -/
def isSafeChar (c : Char) : Bool :=
  (c.isAlphanum && c.toNat < 128) || c = '_' || c = '@' || c = '%' ||
    c = '+' || c = '=' || c = ':' || c = ',' || c = '.' || c = '/' || c = '-'

/-- `shlex.quote`: empty strings become a pair of quotes, safe strings
pass through, anything else is single-quoted with embedded quotes
escaped. -/
def shQuote (s : String) : String :=
  if s = "" then squote ++ squote
  else if s.toList.all isSafeChar then s
  else squote ++ s.replace squote (squote ++ "\"" ++ squote ++ "\"" ++ squote) ++ squote

/-- Text written to `build.log` for an executed build (line 165). -/
def buildLogText (cfg : Config) (code : Int) (out err : String) : String :=
  "$ " ++ String.intercalate " " ((buildCmd cfg).map shQuote) ++
    "\n\n[stdout]\n" ++ out ++ "\n\n[stderr]\n" ++ err ++
    "\n\n[exit] " ++ toString code ++ "\n"

/-- Text written to `run.log` for an executed run stage (line 208);
note the fixed `[via] make run` tag in place of a command line. -/
def runLogText (code : Int) (out err : String) : String :=
  "[via] make run\n\n[stdout]\n" ++ out ++ "\n\n[stderr]\n" ++ err ++
    "\n\n[exit] " ++ toString code ++ "\n"

/-- Which per-project log file a `write_text` call targets. -/
inductive LogFile
  | buildLog
  | runLog
deriving DecidableEq, Repr, Inhabited

/-- One project as the loop body of `main` sees it: its directory
name, whether `proj/Makefile` exists, the behaviour of its build and
run processes, and whether a `KeyboardInterrupt` arrives while the
harness waits on the build (resp. run) subprocess. -/
structure ProjectSpec where
  name : String
  hasMakefile : Bool
  buildProc : Proc
  runProc : Proc
  interruptDuringBuild : Bool
  interruptDuringRun : Bool
deriving DecidableEq, Repr, Inhabited

/-- Result of one iteration of the project loop: either a row is
appended to `summary_rows` (with the log writes performed, in order,
and whether the run stage was actually executed), or a
`KeyboardInterrupt` propagated out of a `run` call (after the log
writes already performed, with the subprocess group killed). -/
inductive StepResult
  | recorded (row : Row) (logs : List (LogFile × String)) (ranRun : Bool)
  | interrupted (logs : List (LogFile × String)) (killedGroup : Bool)
deriving DecidableEq, Repr, Inhabited

/-- The log writes a `StepResult` performed. -/
def StepResult.logs : StepResult → List (LogFile × String)
  | .recorded _ logs _ => logs
  | .interrupted logs _ => logs

/-- One iteration of the loop over projects in `main`
(lines 132-220), faithful to the branch structure:
missing Makefile → SKIP/SKIP row; build failure → FAIL/SKIP row and
no run; `--skip-run` → PASS/SKIP row and no run; otherwise the run
stage executes via `make run` and yields PASS/PASS or PASS/FAIL. -/
def processProject (cfg : Config) (p : ProjectSpec) : StepResult :=
  if p.hasMakefile = false then
    .recorded ⟨p.name, .SKIP, .SKIP, some "makefile_missing", "No Makefile"⟩
      [(.buildLog, "[SKIP] No Makefile found.\n")] false
  else
    match runCmd cfg.timeoutBuild p.interruptDuringBuild p.buildProc with
    | .interrupted kg => .interrupted [] kg
    | .done b =>
      let blog : LogFile × String := (.buildLog, buildLogText cfg b.code b.out b.err)
      if b.code ≠ 0 then
        .recorded ⟨p.name, .FAIL, .SKIP, some "compile",
            "make exit " ++ toString b.code⟩
          [blog, (.runLog, "[SKIP] Build failed; not running.\n")] false
      else if cfg.skipRun then
        .recorded ⟨p.name, .PASS, .SKIP, none, "run skipped"⟩ [blog] false
      else
        match runCmd cfg.timeoutRun p.interruptDuringRun p.runProc with
        | .interrupted kg => .interrupted [blog] kg
        | .done r =>
          let rlog : LogFile × String := (.runLog, runLogText r.code r.out r.err)
          if r.code = 0 then
            .recorded ⟨p.name, .PASS, .PASS, none, ""⟩ [blog, rlog] true
          else
            .recorded ⟨p.name, .PASS, .FAIL, some "run",
                "make run exit " ++ toString r.code⟩ [blog, rlog] true

/-- The row a non-interrupted project iteration records. -/
def rowOf (cfg : Config) (p : ProjectSpec) : Row :=
  match processProject cfg p with
  | .recorded row _ _ => row
  | .interrupted _ _ => default

/-- Outcome of the whole batch: the in-memory `summary_rows`, whether
the report files (`results.csv` / `results.json`) were written, and
the process exit status (0 normal, 1 no projects discovered,
130 interrupted). -/
structure BatchResult where
  rows : List Row
  reportWritten : Bool
  exitCode : Int
deriving DecidableEq, Repr, Inhabited

/-- The loop over discovered projects.  A `KeyboardInterrupt`
propagating out of an iteration aborts the loop; `main` never reaches
the report-writing block, and the top-level handler exits with
status 130. -/
def runBatchGo (cfg : Config) : List ProjectSpec → List Row → BatchResult
  | [], acc => ⟨acc, true, 0⟩
  | p :: ps, acc =>
    match processProject cfg p with
    | .recorded row _ _ => runBatchGo cfg ps (acc ++ [row])
    | .interrupted _ _ => ⟨acc, false, 130⟩

/-- Lexicographic comparison of character lists by code point —
the order Python's `sorted` applies to path strings. -/
def charListLe : List Char → List Char → Bool
  | [], _ => true
  | _ :: _, [] => false
  | a :: as, b :: bs =>
    if a.toNat < b.toNat then true
    else if b.toNat < a.toNat then false
    else charListLe as bs

/-- String comparison by code point, as Python compares `str`. -/
def strLe (a b : String) : Bool := charListLe a.toList b.toList

/-- Discovery order on project records: by directory name. -/
def nameLe (a b : ProjectSpec) : Prop := strLe a.name b.name = true

instance : DecidableRel nameLe := fun a b =>
  inferInstanceAs (Decidable (strLe a.name b.name = true))

instance : IsTotal ProjectSpec nameLe where
  total a b := by
    unfold nameLe strLe
    generalize a.name.toList = as
    generalize b.name.toList = bs
    induction as generalizing bs with
    | nil => left; rfl
    | cons c cs ih =>
      cases bs with
      | nil => right; rfl
      | cons d ds =>
        by_cases h1 : c.toNat < d.toNat
        · left; simp [charListLe, h1]
        · by_cases h2 : d.toNat < c.toNat
          · right; simp [charListLe, h2]
          · rcases ih ds with h | h
            · left; simp [charListLe, h1, h2, h]
            · right; simp [charListLe, h1, h2, h]

instance : IsTrans ProjectSpec nameLe where
  trans a b c := by
    unfold nameLe strLe
    generalize a.name.toList = as
    generalize b.name.toList = bs
    generalize c.name.toList = cs
    intro h1 h2
    induction as generalizing bs cs with
    | nil => rfl
    | cons x xs ih =>
      cases bs with
      | nil => simp [charListLe] at h1
      | cons y ys =>
        cases cs with
        | nil => simp [charListLe] at h2
        | cons z zs =>
          simp only [charListLe] at h1 h2 ⊢
          split_ifs at h1 h2 with hxy hyx hyz hzy <;>
            split_ifs with hxz hzx <;>
            first
              | rfl
              | omega
              | exact ih ys zs h1 h2

/-- Project discovery order: `sorted(sycl_root.glob(pattern))`, i.e.
the project records sorted (stably) by directory name. -/
def discoverProjects (ps : List ProjectSpec) : List ProjectSpec :=
  List.insertionSort nameLe ps

/-- `main` (lines 119-230): discover projects in sorted order, exit 1
when none match, otherwise run the loop and, on normal completion,
write the report. -/
def runBatch (cfg : Config) (ps : List ProjectSpec) : BatchResult :=
  match discoverProjects ps with
  | [] => ⟨[], false, 1⟩
  | p :: rest => runBatchGo cfg (p :: rest) []

/-- `total = len(summary_rows)` (line 232). -/
def totalRows (rows : List Row) : Nat := rows.length

/-- Line 233: rows with compile PASS and run PASS. -/
def passedBoth (rows : List Row) : Nat :=
  rows.countP (fun r => decide (r.compile = .PASS) && decide (r.run = .PASS))

/-- Line 234: rows with compile FAIL. -/
def failedCompile (rows : List Row) : Nat :=
  rows.countP (fun r => decide (r.compile = .FAIL))

/-- Line 235: rows with compile PASS and run FAIL. -/
def failedRun (rows : List Row) : Nat :=
  rows.countP (fun r => decide (r.compile = .PASS) && decide (r.run = .FAIL))

/-- Line 236: rows with run SKIP, whatever the cause. -/
def skippedRun (rows : List Row) : Nat :=
  rows.countP (fun r => decide (r.run = .SKIP))

/-- The four values `failure_stage` takes in a report
(`None`, `makefile_missing`, `compile`, `run`). -/
def reportFailureStages : List (Option String) :=
  [none, some "makefile_missing", some "compile", some "run"]

/-- One regular file inside a project directory, for the
`guess_executable` heuristic: path components relative to the project
root (assumed pairwise distinct across a directory listing, as on a
real filesystem), the executable bit (`os.access(p, os.X_OK)`), size
and modification time (`st_size`, `st_mtime`). -/
structure FileEntry where
  path : List String
  executable : Bool
  size : Nat
  mtime : Nat
deriving DecidableEq, Repr, Inhabited

/-- The last path component (`p.name`). -/
def FileEntry.fname (f : FileEntry) : String := (f.path.getLast?).getD ""

/-- Index (from the start of the list) of the last occurrence of a
dot, if any. -/
def lastDotIdx : List Char → Option Nat
  | [] => none
  | c :: cs =>
    match lastDotIdx cs with
    | some i => some (i + 1)
    | none => if c = '.' then some 0 else none

/-- `pathlib.PurePath.suffix`: the extension including the dot, empty
when the name has no dot, starts with its only dot, or ends with the
dot. -/
def suffixOf (name : String) : String :=
  match lastDotIdx name.toList with
  | none => ""
  | some i =>
    if 0 < i ∧ i + 1 < name.toList.length then
      String.mk (name.toList.drop i)
    else ""

/-- Candidate from the first loop: a file directly under `bin/`
with the executable bit (no suffix filtering there). -/
def binCand (f : FileEntry) : Bool :=
  match f.path with
  | [d, _] => d = "bin" && f.executable
  | _ => false

/-- `str.endswith`: the final characters of `s` are exactly `post`. -/
def strEndsWith (s post : String) : Bool :=
  decide (s.toList.reverse.take post.toList.length = post.toList.reverse)

/-- Candidate from the second loop: an executable file at the project
root whose name does not end in `.sh/.py/.pl` and whose suffix is not
`.o/.a/.so/.dylib`. -/
def rootCand (f : FileEntry) : Bool :=
  match f.path with
  | [_] =>
    f.executable
      && !(strEndsWith f.fname ".sh" || strEndsWith f.fname ".py" || strEndsWith f.fname ".pl")
      && !(suffixOf f.fname ∈ [".o", ".a", ".so", ".dylib"])
  | _ => false

/-- Candidate from the third loop: an executable file anywhere under
`build/`, `out/` or `bin/` (via `rglob`) whose suffix is not in the
script/object/library list. -/
def deepCand (f : FileEntry) : Bool :=
  match f.path with
  | d :: _ :: _ =>
    (d = "build" || d = "out" || d = "bin") && f.executable
      && !(suffixOf f.fname ∈ [".sh", ".py", ".pl", ".o", ".a", ".so", ".dylib"])
  | _ => false

/-- The maximum of the candidate list under the sort key
`(st_size, st_mtime)` used at line 96 (`reverse=True`, first element
taken).  The source puts the candidates through a Python set before
sorting, so the order among exact key ties is not specified there;
this model keeps the earliest such candidate. -/
def pickBest : List FileEntry → Option FileEntry
  | [] => none
  | f :: fs =>
    match pickBest fs with
    | none => some f
    | some g =>
      if g.size > f.size ∨ (g.size = f.size ∧ g.mtime > f.mtime) then some g
      else some f

/-- `guess_executable` (lines 63-97): all three loops contribute to
one shared `candidates` list — the second and third loops run whether
or not earlier loops already found candidates — and the overall
largest (then most recent) file wins; `none` when no loop found
anything. -/
def guess_executable (files : List FileEntry) : Option FileEntry :=
  pickBest (files.filter (fun f => binCand f || rootCand f || deepCand f))

/-- Modelled from the spec (§4.2 ExecutableLocator): the documented
priority order — candidates under the artifact subdirectory `bin/`
first, executable project-root files (suffix-filtered) only when that
tier is empty, the recursive search under build-output directories
only when both earlier tiers are empty — with the size-then-mtime
tie-break applied within the first non-empty tier. -/
def locatePriority (files : List FileEntry) : Option FileEntry :=
  match pickBest (files.filter binCand) with
  | some f => some f
  | none =>
    match pickBest (files.filter rootCand) with
    | some f => some f
    | none => pickBest (files.filter deepCand)

/-! Concrete fixtures used by witnesses and counterexamples. -/

/-- Default configuration: `make`, four jobs, the script's default
timeouts, run stage enabled, no extra cflags. -/
def cfg0 : Config := ⟨"make", 4, 900, 180, false, []⟩

/-- Same configuration with `--skip-run`. -/
def cfgSkip : Config := ⟨"make", 4, 900, 180, true, []⟩

/-- A process that exits immediately with code 0. -/
def procOk : Proc := ⟨some 1, 0, "all good", "", "", ""⟩

/-- A process that exits immediately with code 2. -/
def procFail2 : Proc := ⟨some 1, 2, "compiling", "error: boom", "", ""⟩

/-- A process that never exits on its own. -/
def procHang : Proc := ⟨none, 0, "", "", "partial out", "partial err"⟩

/-- A project directory with no Makefile. -/
def noMkProj : ProjectSpec := ⟨"aaa-sycl", false, procOk, procOk, false, false⟩

/-- A project that builds and runs successfully. -/
def okProj : ProjectSpec := ⟨"bbb-sycl", true, procOk, procOk, false, false⟩

/-- A project whose build exits 2. -/
def failProj : ProjectSpec := ⟨"ccc-sycl", true, procFail2, procOk, false, false⟩

/-- A project interrupted by the user during its build. -/
def intProj : ProjectSpec := ⟨"ddd-sycl", true, procOk, procOk, true, false⟩

/-- The row recorded for `okProj` under `cfg0`. -/
def okRow : Row := ⟨"bbb-sycl", .PASS, .PASS, none, ""⟩

/-- The build log written for `okProj` under `cfg0`. -/
def okBuildLog : String :=
  "$ make -j4 CXX=acpp USE_GPU=no VENDOR=AdaptiveCpp\n\n[stdout]\nall good\n\n[stderr]\n\n\n[exit] 0\n"

/-- The run log written for `okProj` under `cfg0`. -/
def okRunLog : String :=
  "[via] make run\n\n[stdout]\nall good\n\n[stderr]\n\n\n[exit] 0\n"

/-- A small executable directly under `bin/`. -/
def binSmall : FileEntry := ⟨["bin", "alpha"], true, 10, 5⟩

/-- A large executable deeper under `build/`. -/
def buildBig : FileEntry := ⟨["build", "sub", "beta"], true, 1000, 1⟩

/-- A project directory holding both of the above. -/
def demoFiles : List FileEntry := [binSmall, buildBig]

/-- Rows of a `--skip-run` batch exhibiting all three causes of a
skipped run stage: missing Makefile, failed build, build-only mode. -/
def demoBatchRows : List Row :=
  (runBatchGo cfgSkip [noMkProj, failProj, okProj] []).rows

/-! ## Shared lemmas -/

/-- With no interrupt pending, `run` always returns a result. -/
theorem runCmd_no_interrupt (tout : Nat) (p : Proc) :
    ∃ r, runCmd tout false p = .done r := by
  cases h : p.runtime with
  | none =>
    exact ⟨⟨124, p.drainedOut, p.drainedErr ++ "\n[TIMEOUT]\n", true⟩,
      by simp [runCmd, h]⟩
  | some t =>
    by_cases ht : t ≤ tout
    · exact ⟨⟨p.exitCode, p.out, p.err, false⟩, by simp [runCmd, h, ht]⟩
    · exact ⟨⟨124, p.drainedOut, p.drainedErr ++ "\n[TIMEOUT]\n", true⟩,
        by simp [runCmd, h, ht]⟩

/-- A project on which no interrupt arrives is always recorded. -/
theorem processProject_shape (cfg : Config) (p : ProjectSpec)
    (hb : p.interruptDuringBuild = false) (hr : p.interruptDuringRun = false) :
    ∃ row logs rr, processProject cfg p = .recorded row logs rr := by
  obtain ⟨b, hbv⟩ := runCmd_no_interrupt cfg.timeoutBuild p.buildProc
  obtain ⟨r, hrv⟩ := runCmd_no_interrupt cfg.timeoutRun p.runProc
  unfold processProject
  rw [hb, hr, hbv, hrv]
  split
  · exact ⟨_, _, _, rfl⟩
  · dsimp only
    split
    · exact ⟨_, _, _, rfl⟩
    · split
      · exact ⟨_, _, _, rfl⟩
      · split
        · exact ⟨_, _, _, rfl⟩
        · exact ⟨_, _, _, rfl⟩

/-- `rowOf` agrees with the recorded row. -/
theorem rowOf_eq (cfg : Config) (p : ProjectSpec) (row : Row)
    (logs : List (LogFile × String)) (rr : Bool)
    (h : processProject cfg p = .recorded row logs rr) :
    rowOf cfg p = row := by
  unfold rowOf
  rw [h]

/-- Every recorded row carries the project's directory name. -/
theorem recorded_benchmark (cfg : Config) (p : ProjectSpec) (row : Row)
    (logs : List (LogFile × String)) (rr : Bool)
    (h : processProject cfg p = .recorded row logs rr) :
    row.benchmark = p.name := by
  unfold processProject at h
  split at h
  · cases h; rfl
  · split at h
    · cases h
    · dsimp only at h
      split at h
      · cases h; rfl
      · split at h
        · cases h; rfl
        · split at h
          · cases h
          · split at h
            · cases h; rfl
            · cases h; rfl

/-- With no interrupt on any project, the loop records one row per
project, in order, and finishes normally. -/
theorem runBatchGo_no_interrupt (cfg : Config) (ps : List ProjectSpec)
    (acc : List Row)
    (h : ∀ p ∈ ps, p.interruptDuringBuild = false ∧ p.interruptDuringRun = false) :
    runBatchGo cfg ps acc = ⟨acc ++ ps.map (rowOf cfg), true, 0⟩ := by
  induction ps generalizing acc with
  | nil => simp [runBatchGo]
  | cons p ps ih =>
    obtain ⟨hb, hr⟩ := h p (List.mem_cons_self _ _)
    obtain ⟨row, logs, rr, hp⟩ := processProject_shape cfg p hb hr
    have hrow := rowOf_eq cfg p row logs rr hp
    have htail := ih (acc ++ [row]) (fun q hq => h q (List.mem_cons_of_mem _ hq))
    simp only [runBatchGo, hp, htail, hrow]
    simp [hrow]

/-! ## Claims -/

/-- C2: a command whose process has not exited within the configured
timeout has its whole process group killed, its remaining output
drained, and `run` returns exit code 124 with the `[TIMEOUT]` marker
appended to the captured error text. -/
theorem timeout_returns_124 (tout : Nat) (p : Proc)
    (hslow : ∀ t, p.runtime = some t → tout < t) :
    runCmd tout false p =
      .done ⟨124, p.drainedOut, p.drainedErr ++ "\n[TIMEOUT]\n", true⟩ := by
  unfold runCmd
  cases h : p.runtime with
  | none => simp
  | some t => simp [Nat.not_le.mpr (hslow t h)]

/-- C2 witness: a process that never exits, under a 3-second timeout. -/
theorem timeout_returns_124_witness :
    (∀ t, procHang.runtime = some t → 3 < t) ∧
    runCmd 3 false procHang =
      .done ⟨124, "partial out", "partial err\n[TIMEOUT]\n", true⟩ :=
  ⟨fun _ ht => (nomatch ht),
    timeout_returns_124 3 procHang (fun _ ht => (nomatch ht))⟩

/-- C3: a project whose build exits with a nonzero code N is recorded
as FAIL/SKIP with failure_stage `compile` and note `make exit N`, and
its run stage is never attempted (`ranRun = false`, and the only run
log is the skip notice). -/
theorem build_failure_fail_skip (cfg : Config) (p : ProjectSpec)
    (b : CommandResult)
    (hmk : p.hasMakefile = true)
    (hb : runCmd cfg.timeoutBuild p.interruptDuringBuild p.buildProc = .done b)
    (hcode : b.code ≠ 0) :
    processProject cfg p =
      .recorded ⟨p.name, .FAIL, .SKIP, some "compile",
          "make exit " ++ toString b.code⟩
        [(.buildLog, buildLogText cfg b.code b.out b.err),
         (.runLog, "[SKIP] Build failed; not running.\n")] false := by
  unfold processProject
  rw [hmk, hb]
  simp [hcode]

/-- C3 witness: a build exiting 2 yields the `(FAIL, SKIP)` row with
note `make exit 2` and no run attempt. -/
theorem build_failure_fail_skip_witness :
    failProj.hasMakefile = true ∧
    runCmd cfg0.timeoutBuild failProj.interruptDuringBuild failProj.buildProc =
      .done ⟨2, "compiling", "error: boom", false⟩ ∧
    processProject cfg0 failProj =
      .recorded ⟨"ccc-sycl", .FAIL, .SKIP, some "compile", "make exit 2"⟩
        [(.buildLog,
          "$ make -j4 CXX=acpp USE_GPU=no VENDOR=AdaptiveCpp\n\n[stdout]\ncompiling\n\n[stderr]\nerror: boom\n\n[exit] 2\n"),
         (.runLog, "[SKIP] Build failed; not running.\n")] false := by
  refine ⟨rfl, rfl, ?_⟩
  exact build_failure_fail_skip cfg0 failProj
    ⟨2, "compiling", "error: boom", false⟩ rfl rfl (by decide)

/-- C4: a project with no Makefile is recorded as SKIP/SKIP with
failure_stage `makefile_missing` and note `No Makefile`, and the loop
carries on with the remaining projects instead of aborting. -/
theorem missing_makefile_skip_skip (cfg : Config) (p : ProjectSpec)
    (ps : List ProjectSpec) (acc : List Row)
    (hmk : p.hasMakefile = false) :
    processProject cfg p =
      .recorded ⟨p.name, .SKIP, .SKIP, some "makefile_missing", "No Makefile"⟩
        [(.buildLog, "[SKIP] No Makefile found.\n")] false ∧
    runBatchGo cfg (p :: ps) acc =
      runBatchGo cfg ps
        (acc ++ [⟨p.name, .SKIP, .SKIP, some "makefile_missing", "No Makefile"⟩]) := by
  have h : processProject cfg p =
      .recorded ⟨p.name, .SKIP, .SKIP, some "makefile_missing", "No Makefile"⟩
        [(.buildLog, "[SKIP] No Makefile found.\n")] false := by
    unfold processProject
    rw [hmk]
    simp
  exact ⟨h, by simp only [runBatchGo, h]⟩

/-- C4 witness: the Makefile-less project, followed by another
project that the loop still reaches. -/
theorem missing_makefile_skip_skip_witness :
    noMkProj.hasMakefile = false ∧
    runBatchGo cfg0 [noMkProj, okProj] [] =
      runBatchGo cfg0 [okProj]
        [⟨"aaa-sycl", .SKIP, .SKIP, some "makefile_missing", "No Makefile"⟩] := by
  refine ⟨rfl, ?_⟩
  exact (missing_makefile_skip_skip cfg0 noMkProj [okProj] [] rfl).2

/-- C5: in build-only (`--skip-run`) mode, a successfully-building
project is recorded as PASS/SKIP with failure_stage `none` — one of
the four report values — and note `run skipped`. -/
theorem build_only_pass_skip (cfg : Config) (p : ProjectSpec)
    (b : CommandResult)
    (hmk : p.hasMakefile = true)
    (hskip : cfg.skipRun = true)
    (hb : runCmd cfg.timeoutBuild p.interruptDuringBuild p.buildProc = .done b)
    (hcode : b.code = 0) :
    processProject cfg p =
      .recorded ⟨p.name, .PASS, .SKIP, none, "run skipped"⟩
        [(.buildLog, buildLogText cfg b.code b.out b.err)] false ∧
    (none : Option String) ∈ reportFailureStages := by
  refine ⟨?_, by simp [reportFailureStages]⟩
  unfold processProject
  rw [hmk, hb]
  simp [hcode, hskip]

/-- C5 witness: `--skip-run` on the successfully-building project. -/
theorem build_only_pass_skip_witness :
    cfgSkip.skipRun = true ∧
    processProject cfgSkip okProj =
      .recorded ⟨"bbb-sycl", .PASS, .SKIP, none, "run skipped"⟩
        [(.buildLog, okBuildLog)] false := by
  refine ⟨rfl, ?_⟩
  exact (build_only_pass_skip cfgSkip okProj ⟨0, "all good", "", false⟩
    rfl rfl rfl rfl).1

/-- C1 counterexample: the Makefile-less project is processed to a
recorded outcome whose compile field is SKIP, so the claimed
`compile ∈ {PASS, FAIL}` fails on it. -/
theorem stage_invariant_counterexample :
    processProject cfg0 noMkProj =
      .recorded ⟨"aaa-sycl", .SKIP, .SKIP, some "makefile_missing", "No Makefile"⟩
        [(.buildLog, "[SKIP] No Makefile found.\n")] false ∧
    ¬((rowOf cfg0 noMkProj).compile = .PASS ∨
      (rowOf cfg0 noMkProj).compile = .FAIL) := by
  exact ⟨rfl, by decide⟩

/-- C1 (amended): every recorded row has compile in
{PASS, FAIL, SKIP} — SKIP exactly when the Makefile is missing — run
in {PASS, FAIL, SKIP}, and run = SKIP whenever compile is not PASS or
build-only mode was requested. -/
theorem stage_invariant (cfg : Config) (p : ProjectSpec) (row : Row)
    (logs : List (LogFile × String)) (rr : Bool)
    (h : processProject cfg p = .recorded row logs rr) :
    (row.compile = .PASS ∨ row.compile = .FAIL ∨ row.compile = .SKIP) ∧
    (row.run = .PASS ∨ row.run = .FAIL ∨ row.run = .SKIP) ∧
    (row.compile ≠ .PASS → row.run = .SKIP) ∧
    (cfg.skipRun = true → row.run = .SKIP) ∧
    (row.compile = .SKIP ↔ p.hasMakefile = false) := by
  unfold processProject at h
  split at h
  · next hmk =>
    cases h
    simp [hmk]
  · next hmk =>
    rw [Bool.not_eq_false] at hmk
    split at h
    · cases h
    · dsimp only at h
      split at h
      · cases h
        simp [hmk]
      · split at h
        · next hskip =>
          cases h
          simp [hmk]
        · next hskip =>
          rw [Bool.not_eq_true] at hskip
          split at h
          · cases h
          · split at h
            · cases h
              simp [hmk, hskip]
            · cases h
              simp [hmk, hskip]

/-- C1 witness: the amended invariant instantiated on the recorded
row of the missing-Makefile project. -/
theorem stage_invariant_witness :
    processProject cfg0 noMkProj =
      .recorded ⟨"aaa-sycl", .SKIP, .SKIP, some "makefile_missing", "No Makefile"⟩
        [(.buildLog, "[SKIP] No Makefile found.\n")] false ∧
    ((Row.mk "aaa-sycl" .SKIP .SKIP (some "makefile_missing") "No Makefile").compile
        = .SKIP ↔ noMkProj.hasMakefile = false) := by
  refine ⟨rfl, ?_⟩
  exact (stage_invariant cfg0 noMkProj
    ⟨"aaa-sycl", .SKIP, .SKIP, some "makefile_missing", "No Makefile"⟩
    [(.buildLog, "[SKIP] No Makefile found.\n")] false rfl).2.2.2.2

/-- C6 counterexample: for the Makefile-less project the pipeline
writes only the build log skip notice — no run-stage log at all — so
the claim that a per-stage log exists for both stages of every
project fails on it. -/
theorem per_stage_logs_counterexample :
    (processProject cfg0 noMkProj).logs =
      [(.buildLog, "[SKIP] No Makefile found.\n")] ∧
    ∀ s, (LogFile.runLog, s) ∉ (processProject cfg0 noMkProj).logs := by
  refine ⟨rfl, ?_⟩
  intro s hs
  rw [show (processProject cfg0 noMkProj).logs =
    [(.buildLog, "[SKIP] No Makefile found.\n")] from rfl] at hs
  simp at hs

/-- C6 (amended): the build log is always written — the full command
line, stdout, stderr and exit code for an executed build, a skip
notice when the Makefile is missing; a run log is written only when
the build failed (skip notice) or when the run stage executed (fixed
`[via] make run` tag, stdout, stderr, exit code) — no run log exists
for missing-Makefile or build-only projects. -/
theorem per_stage_logs (cfg : Config) (p : ProjectSpec)
    (b r : CommandResult) :
    (p.hasMakefile = false →
      (processProject cfg p).logs = [(.buildLog, "[SKIP] No Makefile found.\n")]) ∧
    (p.hasMakefile = true →
      runCmd cfg.timeoutBuild p.interruptDuringBuild p.buildProc = .done b →
      b.code ≠ 0 →
      (processProject cfg p).logs =
        [(.buildLog, buildLogText cfg b.code b.out b.err),
         (.runLog, "[SKIP] Build failed; not running.\n")]) ∧
    (p.hasMakefile = true →
      runCmd cfg.timeoutBuild p.interruptDuringBuild p.buildProc = .done b →
      b.code = 0 → cfg.skipRun = true →
      (processProject cfg p).logs =
        [(.buildLog, buildLogText cfg b.code b.out b.err)]) ∧
    (p.hasMakefile = true →
      runCmd cfg.timeoutBuild p.interruptDuringBuild p.buildProc = .done b →
      b.code = 0 → cfg.skipRun = false →
      runCmd cfg.timeoutRun p.interruptDuringRun p.runProc = .done r →
      (processProject cfg p).logs =
        [(.buildLog, buildLogText cfg b.code b.out b.err),
         (.runLog, runLogText r.code r.out r.err)]) := by
  refine ⟨?_, ?_, ?_, ?_⟩
  · intro hmk
    unfold processProject
    rw [hmk]
    simp [StepResult.logs]
  · intro hmk hb hcode
    unfold processProject
    rw [hmk, hb]
    simp [hcode, StepResult.logs]
  · intro hmk hb hcode hskip
    unfold processProject
    rw [hmk, hb]
    simp [hcode, hskip, StepResult.logs]
  · intro hmk hb hcode hskip hr
    unfold processProject
    rw [hmk, hb]
    by_cases hc : r.code = 0 <;>
      simp [hcode, hskip, hr, hc, StepResult.logs]

/-- C6 witness: the missing-Makefile case of the amended statement,
on the concrete Makefile-less project. -/
theorem per_stage_logs_witness :
    noMkProj.hasMakefile = false ∧
    (processProject cfg0 noMkProj).logs =
      [(.buildLog, "[SKIP] No Makefile found.\n")] := by
  refine ⟨rfl, ?_⟩
  exact (per_stage_logs cfg0 noMkProj default default).1 rfl

/-- C7 counterexample: a batch of one completed project followed by
one interrupted project ends with no persisted report at all — the
completed project's outcome is not reflected anywhere, refuting the
claim that the persisted report reflects the projects completed
before the interrupt. -/
theorem interrupt_report_counterexample :
    (runBatchGo cfg0 [okProj, intProj] []).rows = [okRow] ∧
    (runBatchGo cfg0 [okProj, intProj] []).reportWritten = false ∧
    (runBatchGo cfg0 [okProj, intProj] []).exitCode = 130 := by
  exact ⟨rfl, rfl, rfl⟩

/-- C7 (amended): on a user interrupt arriving while the harness
waits on a subprocess, the whole process group is killed before the
interruption propagates, the batch stops (projects after the
interrupted one are never reached), and the process exits with the
distinct status 130 — but no report is persisted: the outcomes of the
already-completed projects are discarded, the report being written
only when the whole batch completes. -/
theorem interrupt_stops_batch (cfg : Config)
    (pre post : List ProjectSpec) (p : ProjectSpec)
    (hpre : ∀ q ∈ pre, q.interruptDuringBuild = false ∧ q.interruptDuringRun = false)
    (hmk : p.hasMakefile = true)
    (hint : p.interruptDuringBuild = true) :
    processProject cfg p = .interrupted [] true ∧
    runBatchGo cfg (pre ++ p :: post) [] =
      ⟨pre.map (rowOf cfg), false, 130⟩ := by
  have hstep : processProject cfg p = .interrupted [] true := by
    unfold processProject
    rw [hmk, hint]
    simp [runCmd]
  refine ⟨hstep, ?_⟩
  have hgo : ∀ acc, runBatchGo cfg (pre ++ p :: post) acc =
      ⟨acc ++ pre.map (rowOf cfg), false, 130⟩ := by
    induction pre with
    | nil =>
      intro acc
      simp only [List.nil_append, runBatchGo, hstep, List.map_nil,
        List.append_nil]
    | cons q qs ih =>
      intro acc
      obtain ⟨hb, hr⟩ := hpre q (List.mem_cons_self _ _)
      obtain ⟨row, logs, rr, hq⟩ := processProject_shape cfg q hb hr
      have hrow := rowOf_eq cfg q row logs rr hq
      have htail := ih (fun x hx => hpre x (List.mem_cons_of_mem _ hx)) (acc ++ [row])
      have hstep1 : runBatchGo cfg ((q :: qs) ++ p :: post) acc =
          runBatchGo cfg (qs ++ p :: post) (acc ++ [row]) := by
        simp only [List.cons_append, runBatchGo, hq]
        rfl
      rw [hstep1, htail]
      simp [hrow]
  simpa using hgo []

/-- C7 witness: one completed project, then the interrupted one. -/
theorem interrupt_stops_batch_witness :
    intProj.hasMakefile = true ∧ intProj.interruptDuringBuild = true ∧
    runBatchGo cfg0 ([okProj] ++ intProj :: []) [] = ⟨[okRow], false, 130⟩ := by
  refine ⟨rfl, rfl, ?_⟩
  have h := interrupt_stops_batch cfg0 [okProj] [] intProj
    (by intro q hq; rw [List.mem_singleton] at hq; subst hq; exact ⟨rfl, rfl⟩)
    rfl rfl
  exact h.2

/-- C8: a completed batch writes the report with exactly one row per
discovered project, rows carrying the project names in discovery
order — the sorted (by code point, as Python compares path strings)
order of the project directory names, a permutation of the input
set. -/
theorem report_rows_in_discovery_order (cfg : Config)
    (ps : List ProjectSpec)
    (hne : ps ≠ [])
    (h : ∀ p ∈ ps, p.interruptDuringBuild = false ∧ p.interruptDuringRun = false) :
    (runBatch cfg ps).reportWritten = true ∧
    (runBatch cfg ps).rows.length = ps.length ∧
    (runBatch cfg ps).rows.map Row.benchmark =
      (discoverProjects ps).map ProjectSpec.name ∧
    List.Pairwise (fun a b : String => strLe a b = true)
      ((discoverProjects ps).map ProjectSpec.name) ∧
    (discoverProjects ps).Perm ps := by
  have hperm : (discoverProjects ps).Perm ps := List.perm_insertionSort nameLe ps
  have hsorted : List.Pairwise nameLe (discoverProjects ps) :=
    List.sorted_insertionSort nameLe ps
  have hmem : ∀ q ∈ discoverProjects ps,
      q.interruptDuringBuild = false ∧ q.interruptDuringRun = false :=
    fun q hq => h q (hperm.mem_iff.mp hq)
  have hbench : ∀ x ∈ discoverProjects ps, (rowOf cfg x).benchmark = x.name := by
    intro x hx
    obtain ⟨hxb, hxr⟩ := hmem x hx
    obtain ⟨row, logs, rr, hpx⟩ := processProject_shape cfg x hxb hxr
    rw [rowOf_eq cfg x row logs rr hpx]
    exact recorded_benchmark cfg x row logs rr hpx
  have hne2 : discoverProjects ps ≠ [] := by
    intro h0
    apply hne
    have hlen := hperm.length_eq
    rw [h0] at hlen
    exact List.eq_nil_of_length_eq_zero hlen.symm
  cases hd : discoverProjects ps with
  | nil => exact absurd hd hne2
  | cons q qs =>
    rw [hd] at hperm hsorted hbench
    have hrun : runBatch cfg ps = runBatchGo cfg (q :: qs) [] := by
      unfold runBatch
      rw [hd]
    have hgo := runBatchGo_no_interrupt cfg (q :: qs) [] (hd ▸ hmem)
    rw [hrun, hgo]
    have hlen := hperm.length_eq
    refine ⟨rfl, by simpa using hlen, ?_, ?_, hperm⟩
    · have hmaps : ((q :: qs).map (rowOf cfg)).map Row.benchmark =
          (q :: qs).map ProjectSpec.name := by
        rw [List.map_map]
        exact List.map_congr_left hbench
      simpa using hmaps
    · exact hsorted.map ProjectSpec.name (fun a b hab => hab)

/-- C8 witness: the three demo projects, given out of order, produce
three rows in sorted name order. -/
theorem report_rows_in_discovery_order_witness :
    ([failProj, okProj, noMkProj] : List ProjectSpec) ≠ [] ∧
    (runBatch cfg0 [failProj, okProj, noMkProj]).rows.map Row.benchmark =
      ["aaa-sycl", "bbb-sycl", "ccc-sycl"] := by
  refine ⟨by simp, ?_⟩
  have h := report_rows_in_discovery_order cfg0 [failProj, okProj, noMkProj]
    (by simp)
    (by
      intro p hp
      simp only [List.mem_cons, List.not_mem_nil, or_false] at hp
      rcases hp with rfl | rfl | rfl <;> exact ⟨rfl, rfl⟩)
  rw [h.2.2.1]
  rfl

/-- C9: on a project holding a small executable directly under `bin/`
and a larger one deeper under `build/`, the locator returns the
`build/` file — all three searches feed one shared candidate pool and
the globally largest file wins — whereas the documented priority
order (also stated by the code's own comments) would return the
`bin/` file; the claimed priority order does not hold. -/
theorem guess_executable_no_priority :
    guess_executable demoFiles = some buildBig ∧
    locatePriority demoFiles = some binSmall ∧
    buildBig ≠ binSmall := by
  exact ⟨rfl, rfl, by decide⟩

/-- C10: total = passed-both + failed-compile + failed-run
+ compile-SKIP rows + build-only (PASS, SKIP) rows, for every row
collection — so rows whose compile is SKIP sit in no pass/fail
counter — and on a concrete `--skip-run` batch with a missing
Makefile, a failed build and a successful build, every one of the
three rows counts as a skipped run while the pass/fail counters sum
to 1 of 3. -/
theorem summary_counters :
    (∀ rows : List Row,
      totalRows rows =
        passedBoth rows + failedCompile rows + failedRun rows
          + rows.countP (fun r => decide (r.compile = .SKIP))
          + rows.countP (fun r =>
              decide (r.compile = .PASS) && decide (r.run = .SKIP))) ∧
    demoBatchRows.length = 3 ∧
    skippedRun demoBatchRows = 3 ∧
    passedBoth demoBatchRows + failedCompile demoBatchRows
      + failedRun demoBatchRows = 1 := by
  refine ⟨?_, by decide, by decide, by decide⟩
  intro rows
  induction rows with
  | nil => simp [totalRows, passedBoth, failedCompile, failedRun]
  | cons r rs ih =>
    simp only [totalRows, passedBoth, failedCompile, failedRun,
      List.countP_cons, List.length_cons] at ih ⊢
    cases hc : r.compile <;> cases hr : r.run <;> simp [hc, hr] <;> omega

end HecBench
